import Mathlib

/-!
Verification of the circuit-breaker core described by the repository's
documentation (`@nodelibraries/circuit-breaker`).  The repository ships only
documentation: the breaker engine itself lives in the wrapped `opossum`
dependency and is not part of the source tree, so the engine below is
modelled from the specification's own component design (state machine,
rolling statistics, concurrency gate, cache layer, execution coordinator,
breaker registry).  The two documented default option sets are transcribed
verbatim from the source tree (`docs` API types page and `README.md`).

Conventions of the shallow embedding: time is `Nat` milliseconds, call
arguments and values are `Nat`s, the error filter's verdict on a concrete
error is carried on the behaviour of the wrapped function, and asynchrony is
modelled by separate call-start and call-finish steps on the breaker state.
-/

namespace CircuitBreaker

/-- Modelled from the spec: the decidable configuration fields of the
documented `Options` interface (src/unnamed/part_000).  Function- and
object-valued options (`errorFilter`, `cacheGetKey`, `cacheTransport`,
`abortController`, `rotateBucketController`) are modelled behaviourally
elsewhere: the filter's verdict travels with each error outcome, and the
cache key is supplied per call.  The `name` option is a registry concern. -/
structure Options where
  timeout : Nat
  errorThresholdPercentage : Nat
  resetTimeout : Nat
  rollingCountTimeout : Nat
  rollingCountBuckets : Nat
  rollingPercentilesEnabled : Bool
  capacity : Nat
  enabled : Bool
  allowWarmUp : Bool
  volumeThreshold : Nat
  cache : Bool
  cacheTTL : Nat
  enableSnapshots : Bool
  deriving Repr, DecidableEq

/-- The default option values listed on the API types documentation page
(src/unnamed/part_000, "Default Values"); `Number.MAX_SAFE_INTEGER` is
`2^53 - 1`. -/
def docsDefaultOptions : Options where
  timeout := 10000
  errorThresholdPercentage := 50
  resetTimeout := 30000
  rollingCountTimeout := 10000
  rollingCountBuckets := 10
  rollingPercentilesEnabled := true
  capacity := 9007199254740991
  enabled := true
  allowWarmUp := false
  volumeThreshold := 0
  cache := false
  cacheTTL := 0
  enableSnapshots := true

/-- The default option values listed in the README's "Options" section
(src/README.md). -/
def readmeDefaultOptions : Options where
  timeout := 3000
  errorThresholdPercentage := 50
  resetTimeout := 5000
  rollingCountTimeout := 10000
  rollingCountBuckets := 10
  rollingPercentilesEnabled := false
  capacity := 10
  enabled := true
  allowWarmUp := false
  volumeThreshold := 5
  cache := false
  cacheTTL := 0
  enableSnapshots := false

/-- Modelled from the spec: breaker state, one of Closed / Open / HalfOpen
(`opened` carries the time the breaker opened, arming the reset timer;
`halfOpen` carries whether the single probe is currently in flight). -/
inductive BState where
  | closed : BState
  | opened (openedAt : Nat) : BState
  | halfOpen (probeActive : Bool) : BState
  deriving Repr, DecidableEq

/-- Modelled from the spec: the classification of one fired call's outcome
as recorded in the rolling statistics window.  `filtered` marks an error the
configured `errorFilter` accepted: it is recorded as neither failure nor
success against the threshold. -/
inductive FiredRes where
  | success : FiredRes
  | failure : FiredRes
  | timedOut : FiredRes
  | filtered : FiredRes
  deriving Repr, DecidableEq

/-- Modelled from the spec: one record of the rolling statistics window —
a fired call's outcome stamped with its recording time. -/
structure WRec where
  t : Nat
  res : FiredRes
  deriving Repr, DecidableEq

/-- Modelled from the spec: cumulative statistics counters as documented in
the statistics guide (fires, successes, failures, timeouts, rejects,
semaphoreLocked, cacheHits, cacheMisses) plus the fallback-invocation count
and a ghost counter of filtered errors used to state accounting invariants. -/
structure Counters where
  fires : Nat := 0
  successes : Nat := 0
  failures : Nat := 0
  timeouts : Nat := 0
  rejects : Nat := 0
  semaphoreLocked : Nat := 0
  cacheHits : Nat := 0
  cacheMisses : Nat := 0
  fallbacks : Nat := 0
  filteredErrors : Nat := 0
  deriving Repr, DecidableEq

/-- Modelled from the spec: a cache entry — key, stored result, insertion
time; evicted when the TTL elapses (0 = never). -/
structure CEntry where
  key : Nat
  val : Nat
  insertedAt : Nat
  deriving Repr, DecidableEq

/-- Modelled from the spec: an in-flight dispatched call (a held concurrency
permit), remembering its cache key and whether it is the HalfOpen probe. -/
structure Pend where
  key : Nat
  isProbe : Bool
  deriving Repr, DecidableEq

/-- Modelled from the spec: a named breaker — configuration, current state,
rolling statistics window, in-flight calls (the concurrency gate's held
permits), cache store and cumulative counters. -/
structure Breaker where
  cfg : Options
  createdAt : Nat
  st : BState
  window : List WRec
  pending : List Pend
  cacheStore : List CEntry
  counters : Counters
  deriving Repr, DecidableEq

/-- Modelled from the spec: a freshly created breaker starts Closed with
empty statistics. -/
def mkBreaker (cfg : Options) (now : Nat) : Breaker where
  cfg := cfg
  createdAt := now
  st := .closed
  window := []
  pending := []
  cacheStore := []
  counters := {}

/-- A window record is live at `now` when its age is below the rolling
window duration. -/
def recLive (cfg : Options) (now : Nat) (r : WRec) : Bool :=
  decide (now < r.t + cfg.rollingCountTimeout)

/-- Modelled from the spec: total fired requests aggregated over the live
window; filtered errors are excluded from error-rate computation. -/
def windowFires (cfg : Options) (now : Nat) (w : List WRec) : Nat :=
  (w.filter (fun r => recLive cfg now r && !(r.res == .filtered))).length

/-- Modelled from the spec: failures aggregated over the live window. -/
def windowFailures (cfg : Options) (now : Nat) (w : List WRec) : Nat :=
  (w.filter (fun r => recLive cfg now r && r.res == .failure)).length

/-- Modelled from the spec: timeouts aggregated over the live window. -/
def windowTimeouts (cfg : Options) (now : Nat) (w : List WRec) : Nat :=
  (w.filter (fun r => recLive cfg now r && r.res == .timedOut)).length

/-- Modelled from the spec: the Closed → Open condition — within the rolling
window, total fired requests ≥ volume threshold AND
(failures+timeouts)/fires × 100 ≥ errorThresholdPercentage (stated by
cross-multiplication; the rate is undefined on zero fires, hence `0 < wf`).
While warm-up is active (the initial rolling-window duration after breaker
creation, when `allowWarmUp` is set) failures do not count toward this
evaluation. -/
def shouldOpen (cfg : Options) (createdAt now : Nat) (w : List WRec) : Bool :=
  let wf := windowFires cfg now w
  !(cfg.allowWarmUp && decide (now < createdAt + cfg.rollingCountTimeout)) &&
    decide (0 < wf) && decide (cfg.volumeThreshold ≤ wf) &&
    decide (cfg.errorThresholdPercentage * wf ≤
      (windowFailures cfg now w + windowTimeouts cfg now w) * 100)

/-- Modelled from the spec: Open → HalfOpen when the reset timer elapses;
applied at the start of each event observation. -/
def tickReset (b : Breaker) (now : Nat) : Breaker :=
  match b.st with
  | .opened oa =>
      if oa + b.cfg.resetTimeout ≤ now then { b with st := (.halfOpen false) } else b
  | _ => b

/-- Modelled from the spec: a cache entry is live when TTL is 0 (never
expires until explicit flush) or its age is below the TTL. -/
def entryLive (cfg : Options) (now : Nat) (e : CEntry) : Bool :=
  cfg.cacheTTL == 0 || decide (now < e.insertedAt + cfg.cacheTTL)

/-- Modelled from the spec: cache lookup — the stored value for the key when
a live entry exists, otherwise a miss. -/
def cacheGet (cfg : Options) (store : List CEntry) (now key : Nat) : Option Nat :=
  (store.find? (fun e => e.key == key && entryLive cfg now e)).map (fun e => e.val)

/-- Modelled from the spec: cache store — only the first successful result
per key is retained: a live entry for the key is kept, otherwise the new
value is inserted (dropping any expired entry for the key). -/
def cacheSet (cfg : Options) (store : List CEntry) (now key val : Nat) : List CEntry :=
  match store.find? (fun e => e.key == key && entryLive cfg now e) with
  | some _ => store
  | none => ⟨key, val, now⟩ :: store.filter (fun e => !(e.key == key))

/-- Modelled from the spec: explicit cache flush empties the store. -/
def cacheFlush (_store : List CEntry) : List CEntry := []

/-- Modelled from the spec: the decision taken when a call arrives —
bypassed (breaker disabled), served from cache, rejected because the breaker
is Open (or the HalfOpen probe slot is occupied), rejected because the
concurrency capacity is exhausted, or dispatched to the wrapped function
(possibly as the HalfOpen probe). -/
inductive Dec where
  | bypass : Dec
  | cached (v : Nat) : Dec
  | rejOpen : Dec
  | rejCapacity : Dec
  | fired (isProbe : Bool) : Dec
  deriving Repr, DecidableEq

/-- Modelled from the spec, execution coordinator steps 1–5 at call arrival:
apply the reset timer; when disabled, bypass; when caching is enabled and a
live entry exists, record a cache hit and serve it (cache hits may be served
even while Open); when Open or the HalfOpen probe slot is occupied, record a
reject; when capacity is exhausted, record semaphoreLocked; otherwise record
a fire, take a permit, and dispatch (as the probe when HalfOpen). -/
def startCall (b : Breaker) (now key : Nat) : Breaker × Dec :=
  if !b.cfg.enabled then (b, .bypass)
  else
    let b := tickReset b now
    match (if b.cfg.cache then cacheGet b.cfg b.cacheStore now key else none) with
    | some v =>
        ({ b with counters := { b.counters with cacheHits := b.counters.cacheHits + 1 } },
          .cached v)
    | none =>
      let b := if b.cfg.cache then
          { b with counters := { b.counters with cacheMisses := b.counters.cacheMisses + 1 } }
        else b
      match b.st with
      | .opened _ =>
          ({ b with counters := { b.counters with rejects := b.counters.rejects + 1 } },
            .rejOpen)
      | .halfOpen true =>
          ({ b with counters := { b.counters with rejects := b.counters.rejects + 1 } },
            .rejOpen)
      | .halfOpen false =>
          if b.cfg.capacity ≤ b.pending.length then
            ({ b with counters :=
                { b.counters with semaphoreLocked := b.counters.semaphoreLocked + 1 } },
              .rejCapacity)
          else
            ({ b with
                st := (.halfOpen true)
                pending := b.pending ++ [⟨key, true⟩]
                counters := { b.counters with fires := b.counters.fires + 1 } },
              .fired true)
      | .closed =>
          if b.cfg.capacity ≤ b.pending.length then
            ({ b with counters :=
                { b.counters with semaphoreLocked := b.counters.semaphoreLocked + 1 } },
              .rejCapacity)
          else
            ({ b with
                pending := b.pending ++ [⟨key, false⟩]
                counters := { b.counters with fires := b.counters.fires + 1 } },
              .fired false)

/-- Modelled from the spec: what the wrapped function does on a dispatched
call — resolve with a value, throw an error (whose `errorFilter` verdict is
the Boolean), or exceed the configured timeout. -/
inductive Beh where
  | succeed (v : Nat) : Beh
  | fail (filtered : Bool) (e : Nat) : Beh
  | hang : Beh

/-- Modelled from the spec: probe-success window reset — the window's
failure counters (failures and timeouts) are cleared. -/
def clearFailures (w : List WRec) : List WRec :=
  w.filter (fun r => !(r.res == .failure || r.res == .timedOut))

/-- Modelled from the spec: threshold evaluation after an outcome is
recorded — only a Closed breaker transitions to Open here. -/
def updateState (b : Breaker) (now : Nat) : Breaker :=
  match b.st with
  | .closed =>
      if shouldOpen b.cfg b.createdAt now b.window then { b with st := (.opened now) } else b
  | _ => b

/-- Modelled from the spec, execution coordinator at call completion: the
permit is released on every exit path; the outcome is recorded (success
stores into the cache when enabled; a filtered error is recorded as neither
failure nor success against the threshold and triggers no threshold
evaluation); a successful probe closes the breaker and resets the window's
failure counters, a failed / timed-out / throwing probe re-opens it with the
reset timer re-armed; otherwise the Closed → Open threshold is evaluated
after the outcome is recorded. -/
def finishAt (b : Breaker) (now i : Nat) (beh : Beh) : Breaker :=
  match b.pending.get? i with
  | none => b
  | some p =>
    let b := { b with pending := b.pending.eraseIdx i }
    match beh with
    | .succeed v =>
        let b := { b with
          window := ⟨now, .success⟩ :: b.window,
          counters := { b.counters with successes := b.counters.successes + 1 } }
        let b := if b.cfg.cache then
            { b with cacheStore := cacheSet b.cfg b.cacheStore now p.key v }
          else b
        if p.isProbe then
          { b with st := .closed, window := clearFailures b.window }
        else updateState b now
    | .fail filt _ =>
        if filt then
          let b := { b with
            window := ⟨now, .filtered⟩ :: b.window,
            counters := { b.counters with filteredErrors := b.counters.filteredErrors + 1 } }
          if p.isProbe then { b with st := (.opened now) } else b
        else
          let b := { b with
            window := ⟨now, .failure⟩ :: b.window,
            counters := { b.counters with failures := b.counters.failures + 1 } }
          if p.isProbe then { b with st := (.opened now) } else updateState b now
    | .hang =>
        let b := { b with
          window := ⟨now, .timedOut⟩ :: b.window,
          counters := { b.counters with timeouts := b.counters.timeouts + 1 } }
        if p.isProbe then { b with st := (.opened now) } else updateState b now

/-- Modelled from the spec, §7 error taxonomy: the failures surfaced to the
caller — wrapped-function error, timeout, rejection (breaker Open or probe
slot occupied), capacity exhaustion, fallback failure, and the default
"service unavailable" error. -/
inductive CbErr where
  | callFailure (e : Nat) : CbErr
  | timedOut : CbErr
  | rejected : CbErr
  | capacityExceeded : CbErr
  | fallbackFailure (e : Nat) : CbErr
  | unavailable : CbErr
  deriving Repr, DecidableEq

/-- Modelled from the spec, coordinator step 6: when a fallback was
supplied, invoke it with `fallbackArgs` (or the original args when unset)
and return its result, recording `fallback`; a throwing fallback's error
propagates; with no fallback, fail with the "service unavailable" error. -/
def withFallback (b : Breaker) (fb? : Option (List Nat → Except Nat Nat))
    (args : List Nat) (fbArgs? : Option (List Nat)) :
    Breaker × Except CbErr Nat :=
  match fb? with
  | none => (b, .error .unavailable)
  | some f =>
      let b := { b with counters := { b.counters with fallbacks := b.counters.fallbacks + 1 } }
      match f (fbArgs?.getD args) with
      | .ok v => (b, .ok v)
      | .error fe => (b, .error (.fallbackFailure fe))

/-- Modelled from the spec: the result of running the wrapped function
directly, uninstrumented (breaker disabled). -/
def directResult (beh : Beh) : Except CbErr Nat :=
  match beh with
  | .succeed v => .ok v
  | .fail _ e => .error (.callFailure e)
  | .hang => .error .timedOut

/-- Modelled from the spec: one complete sequential call through the
execution coordinator — start, then (when dispatched) immediate completion
with the wrapped function's behaviour, then the fallback path for failed or
rejected primaries. -/
def execute (b : Breaker) (now key : Nat) (beh : Beh)
    (fb? : Option (List Nat → Except Nat Nat)) (args : List Nat)
    (fbArgs? : Option (List Nat)) : Breaker × Except CbErr Nat :=
  match startCall b now key with
  | (b1, .bypass) => (b1, directResult beh)
  | (b1, .cached v) => (b1, .ok v)
  | (b1, .rejOpen) => withFallback b1 fb? args fbArgs?
  | (b1, .rejCapacity) => withFallback b1 fb? args fbArgs?
  | (b1, .fired _) =>
      let j := b1.pending.length - 1
      match beh with
      | .succeed v => (finishAt b1 now j (.succeed v), .ok v)
      | .fail filt e =>
          let b2 := finishAt b1 now j (.fail filt e)
          withFallback b2 fb? args fbArgs?
      | .hang =>
          let b2 := finishAt b1 now j .hang
          withFallback b2 fb? args fbArgs?

/-- Modelled from the spec: the breaker registry — named breakers created
lazily on first reference. -/
structure Registry where
  breakers : List (String × Breaker)
  deriving Repr

/-- Modelled from the spec, §6 naming convention: with a level, the breaker
name is the level-prefixed `"<Level>::<name>"`; without, the bare name. -/
def qualifiedName (level? : Option String) (name : String) : String :=
  match level? with
  | some l => l ++ "::" ++ name
  | none => name

/-- Modelled from the spec: `resolve(name) -> Breaker` — create and store a
new breaker with its configuration on first reference; subsequent calls with
the same name return the stored instance and ignore the supplied options. -/
def resolve (r : Registry) (name : String) (opts : Options) (now : Nat) :
    Registry × Breaker :=
  match r.breakers.find? (fun p => p.1 == name) with
  | some p => (r, p.2)
  | none =>
      let b := mkBreaker opts now
      ({ breakers := (name, b) :: r.breakers }, b)

/-- Modelled from the spec: registry-level execute — resolve the breaker
(creating it with the per-call options on first use), run the call, store
the updated breaker back under its name. -/
def registryExecute (r : Registry) (name : String) (opts : Options)
    (now key : Nat) (beh : Beh) (fb? : Option (List Nat → Except Nat Nat))
    (args : List Nat) (fbArgs? : Option (List Nat)) :
    Registry × Except CbErr Nat :=
  let (r1, b) := resolve r name opts now
  let (b2, res) := execute b now key beh fb? args fbArgs?
  (⟨r1.breakers.map (fun p => if p.1 == name then (p.1, b2) else p)⟩, res)

/-- A trace event on one breaker: an asynchronous call start, an
asynchronous call completion (by in-flight index), or a complete sequential
call. -/
inductive Ev where
  | start (t key : Nat) : Ev
  | finish (t i : Nat) (beh : Beh) : Ev
  | call (t key : Nat) (beh : Beh) : Ev

/-- Step a breaker by one trace event (fallbacks do not affect the breaker
beyond the fallback counter, so trace events omit them). -/
def stepEv (b : Breaker) : Ev → Breaker
  | .start t key => (startCall b t key).1
  | .finish t i beh => finishAt b t i beh
  | .call t key beh => (execute b t key beh none [] none).1

/-- Run a breaker over a trace of events. -/
def runTrace (b : Breaker) : List Ev → Breaker
  | [] => b
  | e :: es => runTrace (stepEv b e) es

/-- The window classification the coordinator records for a behaviour. -/
def recOf : Beh → FiredRes
  | .succeed _ => .success
  | .fail true _ => .filtered
  | .fail false _ => .failure
  | .hang => .timedOut

/-- A fresh breaker put through `n` consecutive sequential calls at time `t`
whose wrapped function throws an unfiltered error each time. -/
def failTrace (cfg : Options) (t : Nat) : Nat → Breaker
  | 0 => mkBreaker cfg t
  | n + 1 => (execute (failTrace cfg t n) t 0 (.fail false 0) none [] none).1

/-- A breaker put through `n` consecutive sequential calls at time `now`
whose wrapped function throws an error the `errorFilter` accepts. -/
def filteredCalls (b : Breaker) (now key e : Nat) : Nat → Breaker
  | 0 => b
  | n + 1 => (execute (filteredCalls b now key e n) now key (.fail true e) none [] none).1



/-- The statistics-accounting balance: cumulative fires equal completed
outcomes (successes, failures, timeouts, filtered errors) plus calls still
in flight. -/
def accBalanced (b : Breaker) : Prop :=
  b.counters.fires =
    b.counters.successes + b.counters.failures + b.counters.timeouts +
      b.counters.filteredErrors + b.pending.length

/-- A concrete configuration used for instantiating the theorems: the
spec's example scenario (50% threshold, volume threshold 4, 1000 ms reset
timeout) with capacity 2. -/
def cfgW : Options where
  timeout := 3000
  errorThresholdPercentage := 50
  resetTimeout := 1000
  rollingCountTimeout := 10000
  rollingCountBuckets := 10
  rollingPercentilesEnabled := false
  capacity := 2
  enabled := true
  allowWarmUp := false
  volumeThreshold := 4
  cache := false
  cacheTTL := 0
  enableSnapshots := false

/-- The example configuration with caching enabled and a 5000 ms TTL. -/
def cfgWC : Options := { cfgW with cache := true, cacheTTL := 5000 }

/-- A breaker that opened at time 0. -/
def openBreaker : Breaker := { mkBreaker cfgW 0 with st := (.opened 0) }

/-- A HalfOpen breaker whose probe slot is free. -/
def probeBreakerIdle : Breaker := { mkBreaker cfgW 0 with st := (.halfOpen false) }

/-- A HalfOpen breaker whose probe call is in flight. -/
def probeBreakerBusy : Breaker :=
  { mkBreaker cfgW 0 with st := (.halfOpen true), pending := [⟨0, true⟩] }

/-- A Closed breaker with one ordinary call in flight. -/
def pendingBreaker : Breaker := { mkBreaker cfgW 0 with pending := [⟨0, false⟩] }

/-- A Closed breaker whose two permits (capacity 2) are both held. -/
def busyBreaker : Breaker :=
  { mkBreaker cfgW 0 with pending := [⟨0, false⟩, ⟨1, false⟩] }

/-- A caching breaker holding a live cache entry for key 0. -/
def cachedBreaker : Breaker :=
  { mkBreaker cfgWC 0 with cacheStore := [⟨0, 42, 0⟩] }

/-- A fallback that returns its first argument. -/
def fbOk : List Nat → Except Nat Nat := fun xs => .ok (xs.headD 0)

/-- A fallback that itself throws. -/
def fbThrow : List Nat → Except Nat Nat := fun _ => .error 9

theorem tickReset_cfg (b : Breaker) (now : Nat) : (tickReset b now).cfg = b.cfg := by
  unfold tickReset
  repeat' split <;> try rfl

theorem tickReset_pending (b : Breaker) (now : Nat) :
    (tickReset b now).pending = b.pending := by
  unfold tickReset
  repeat' split <;> try rfl

theorem tickReset_counters (b : Breaker) (now : Nat) :
    (tickReset b now).counters = b.counters := by
  unfold tickReset
  repeat' split <;> try rfl

theorem tickReset_cacheStore (b : Breaker) (now : Nat) :
    (tickReset b now).cacheStore = b.cacheStore := by
  unfold tickReset
  repeat' split <;> try rfl

theorem startCall_cfg (b : Breaker) (now key : Nat) :
    (startCall b now key).1.cfg = b.cfg := by
  unfold startCall
  repeat' split <;> simp_all [tickReset_cfg]

theorem finishAt_cfg (b : Breaker) (now i : Nat) (beh : Beh) :
    (finishAt b now i beh).cfg = b.cfg := by
  unfold finishAt updateState
  rcases hp : b.pending.get? i with _ | p
  · rfl
  · cases beh with
    | succeed v =>
        cases hc : b.cfg.cache <;> cases hpr : p.isProbe <;>
          simp only [hc, hpr, Bool.false_eq_true, if_false, if_true, ite_true, ite_false] <;>
          (try split) <;> (try split) <;> rfl
    | fail filt e =>
        cases filt <;> cases hpr : p.isProbe <;>
          simp only [hpr, Bool.false_eq_true, if_false, if_true, ite_true, ite_false] <;>
          (try split) <;> (try split) <;> rfl
    | hang =>
        cases hpr : p.isProbe <;>
          simp only [hpr, Bool.false_eq_true, if_false, if_true, ite_true, ite_false] <;>
          (try split) <;> (try split) <;> rfl

theorem withFallback_cfg (b : Breaker) (fb? : Option (List Nat → Except Nat Nat))
    (args : List Nat) (fbArgs? : Option (List Nat)) :
    (withFallback b fb? args fbArgs?).1.cfg = b.cfg := by
  cases fb? with
  | none => rfl
  | some f =>
      rcases hf : f (fbArgs?.getD args) with v | fe <;>
        simp only [withFallback, hf] <;> rfl

theorem execute_cfg (b : Breaker) (now key : Nat) (beh : Beh)
    (fb? : Option (List Nat → Except Nat Nat)) (args : List Nat)
    (fbArgs? : Option (List Nat)) :
    (execute b now key beh fb? args fbArgs?).1.cfg = b.cfg := by
  have h1 := startCall_cfg b now key
  unfold execute
  rcases hs : startCall b now key with ⟨b1, d⟩
  rw [hs] at h1
  cases d <;> cases beh <;>
    simp_all [finishAt_cfg, withFallback_cfg]



theorem tickReset_noop_closed (b : Breaker) (now : Nat) (hst : b.st = .closed) :
    tickReset b now = b := by
  unfold tickReset
  rw [hst]

theorem tickReset_noop_half (b : Breaker) (now : Nat) (pr : Bool)
    (hst : b.st = .halfOpen pr) : tickReset b now = b := by
  unfold tickReset
  rw [hst]

theorem tickReset_noop_open (b : Breaker) (oa now : Nat) (hst : b.st = .opened oa)
    (hT : now < oa + b.cfg.resetTimeout) : tickReset b now = b := by
  unfold tickReset
  rw [hst]
  have h1 : ¬ (oa + b.cfg.resetTimeout ≤ now) := by omega
  simp [h1]

theorem tickReset_elapsed (b : Breaker) (oa now : Nat) (hst : b.st = .opened oa)
    (hT : oa + b.cfg.resetTimeout ≤ now) :
    tickReset b now = { b with st := (.halfOpen false) } := by
  unfold tickReset
  rw [hst]
  simp [hT]

theorem cacheCheck_none (b : Breaker) (now key : Nat)
    (hMissD : b.cfg.cache = false ∨ cacheGet b.cfg b.cacheStore now key = none) :
    (if b.cfg.cache then cacheGet b.cfg b.cacheStore now key else none) = none := by
  rcases hMissD with h | h
  · simp [h]
  · cases hc : b.cfg.cache <;> simp [h]

theorem startCall_rejOpen_of_opened (b : Breaker) (oa now key : Nat)
    (hst : b.st = .opened oa) (hEn : b.cfg.enabled = true)
    (hT : now < oa + b.cfg.resetTimeout)
    (hMissD : b.cfg.cache = false ∨ cacheGet b.cfg b.cacheStore now key = none) :
    (startCall b now key).2 = .rejOpen ∧
      (startCall b now key).1.st = b.st ∧
      (startCall b now key).1.pending = b.pending ∧
      (startCall b now key).1.window = b.window ∧
      (startCall b now key).1.counters.fires = b.counters.fires ∧
      (startCall b now key).1.counters.rejects = b.counters.rejects + 1 ∧
      (startCall b now key).1.counters.semaphoreLocked = b.counters.semaphoreLocked := by
  have hTR : tickReset b now = b := tickReset_noop_open b oa now hst hT
  have hM := cacheCheck_none b now key hMissD
  cases hc : b.cfg.cache <;>
    simp_all [startCall, hTR, hM, hEn, hst, hc]

theorem startCall_rejOpen_of_probe (b : Breaker) (now key : Nat)
    (hst : b.st = .halfOpen true) (hEn : b.cfg.enabled = true)
    (hMissD : b.cfg.cache = false ∨ cacheGet b.cfg b.cacheStore now key = none) :
    (startCall b now key).2 = .rejOpen ∧
      (startCall b now key).1.st = b.st ∧
      (startCall b now key).1.pending = b.pending ∧
      (startCall b now key).1.window = b.window ∧
      (startCall b now key).1.counters.fires = b.counters.fires ∧
      (startCall b now key).1.counters.rejects = b.counters.rejects + 1 := by
  have hTR : tickReset b now = b := tickReset_noop_half b now true hst
  have hM := cacheCheck_none b now key hMissD
  cases hc : b.cfg.cache <;>
    simp_all [startCall, hTR, hM, hEn, hst, hc]

theorem startCall_cached (b : Breaker) (now key v : Nat)
    (hEn : b.cfg.enabled = true) (hc : b.cfg.cache = true)
    (hGet : cacheGet b.cfg b.cacheStore now key = some v) :
    (startCall b now key).2 = .cached v ∧
      (startCall b now key).1.pending = b.pending ∧
      (startCall b now key).1.window = b.window ∧
      (startCall b now key).1.counters.fires = b.counters.fires ∧
      (startCall b now key).1.counters.failures = b.counters.failures ∧
      (startCall b now key).1.counters.cacheHits = b.counters.cacheHits + 1 := by
  have h1 : (tickReset b now).cfg = b.cfg := tickReset_cfg b now
  have h2 : (tickReset b now).cacheStore = b.cacheStore := tickReset_cacheStore b now
  have h3 : (tickReset b now).pending = b.pending := tickReset_pending b now
  have h4 : (tickReset b now).counters = b.counters := tickReset_counters b now
  have h5 : (tickReset b now).window = b.window := by
    unfold tickReset
    repeat' split <;> try rfl
  simp_all [startCall, hEn, hc, hGet]

theorem startCall_fired_closed (b : Breaker) (now key : Nat)
    (hst : b.st = .closed) (hEn : b.cfg.enabled = true)
    (hMissD : b.cfg.cache = false ∨ cacheGet b.cfg b.cacheStore now key = none)
    (hCap : b.pending.length < b.cfg.capacity) :
    (startCall b now key).2 = .fired false ∧
      (startCall b now key).1.st = .closed ∧
      (startCall b now key).1.pending = b.pending ++ [⟨key, false⟩] ∧
      (startCall b now key).1.window = b.window ∧
      (startCall b now key).1.cacheStore = b.cacheStore ∧
      (startCall b now key).1.createdAt = b.createdAt ∧
      (startCall b now key).1.counters.fires = b.counters.fires + 1 ∧
      (startCall b now key).1.counters.successes = b.counters.successes ∧
      (startCall b now key).1.counters.failures = b.counters.failures ∧
      (startCall b now key).1.counters.rejects = b.counters.rejects := by
  have hTR : tickReset b now = b := tickReset_noop_closed b now hst
  have hC2 : ¬ (b.cfg.capacity ≤ b.pending.length) := by omega
  rcases hMissD with hc | hg
  · simp [startCall, hTR, hEn, hst, hc, if_neg hC2]
  · cases hc2 : b.cfg.cache <;>
      simp [startCall, hTR, hEn, hst, hc2, hg, if_neg hC2]

theorem startCall_fired_probe (b : Breaker) (now key : Nat)
    (hst : b.st = .halfOpen false) (hEn : b.cfg.enabled = true)
    (hMissD : b.cfg.cache = false ∨ cacheGet b.cfg b.cacheStore now key = none)
    (hCap : b.pending.length < b.cfg.capacity) :
    (startCall b now key).2 = .fired true ∧
      (startCall b now key).1.st = .halfOpen true ∧
      (startCall b now key).1.pending = b.pending ++ [⟨key, true⟩] ∧
      (startCall b now key).1.counters.fires = b.counters.fires + 1 := by
  have hTR : tickReset b now = b := tickReset_noop_half b now false hst
  have hC2 : ¬ (b.cfg.capacity ≤ b.pending.length) := by omega
  rcases hMissD with hc | hg
  · simp [startCall, hTR, hEn, hst, hc, if_neg hC2]
  · cases hc2 : b.cfg.cache <;>
      simp [startCall, hTR, hEn, hst, hc2, hg, if_neg hC2]

theorem startCall_semaphore (b : Breaker) (now key : Nat)
    (hst : b.st = .closed) (hEn : b.cfg.enabled = true)
    (hMissD : b.cfg.cache = false ∨ cacheGet b.cfg b.cacheStore now key = none)
    (hCap : b.cfg.capacity ≤ b.pending.length) :
    (startCall b now key).2 = .rejCapacity ∧
      (startCall b now key).1.st = b.st ∧
      (startCall b now key).1.pending = b.pending ∧
      (startCall b now key).1.window = b.window ∧
      (startCall b now key).1.counters.fires = b.counters.fires ∧
      (startCall b now key).1.counters.semaphoreLocked = b.counters.semaphoreLocked + 1 ∧
      (startCall b now key).1.counters.rejects = b.counters.rejects := by
  have hTR : tickReset b now = b := tickReset_noop_closed b now hst
  rcases hMissD with hc | hg
  · simp [startCall, hTR, hEn, hst, hc, if_pos hCap]
  · cases hc2 : b.cfg.cache <;>
      simp [startCall, hTR, hEn, hst, hc2, hg, if_pos hCap]

theorem updateState_closed (b : Breaker) (now : Nat) (hst : b.st = .closed) :
    updateState b now =
      if shouldOpen b.cfg b.createdAt now b.window then { b with st := (.opened now) } else b := by
  unfold updateState
  rw [hst]

theorem updateState_not_closed (b : Breaker) (now : Nat) (hst : b.st ≠ .closed) :
    updateState b now = b := by
  unfold updateState
  cases h : b.st
  · exact absurd h hst
  · rfl
  · rfl

theorem updateState_pending (b : Breaker) (now : Nat) :
    (updateState b now).pending = b.pending := by
  unfold updateState
  split <;> (try split) <;> rfl

theorem updateState_window (b : Breaker) (now : Nat) :
    (updateState b now).window = b.window := by
  unfold updateState
  split <;> (try split) <;> rfl

theorem updateState_counters (b : Breaker) (now : Nat) :
    (updateState b now).counters = b.counters := by
  unfold updateState
  split <;> (try split) <;> rfl

theorem finishAt_invalid (b : Breaker) (now i : Nat) (beh : Beh)
    (hp : b.pending.get? i = none) : finishAt b now i beh = b := by
  unfold finishAt
  rw [hp]

theorem finishAt_nonprobe_fail (b : Breaker) (now i : Nat) (e : Nat) (p : Pend)
    (hp : b.pending.get? i = some p) (hpr : p.isProbe = false) :
    finishAt b now i (.fail false e) =
      updateState { b with
        pending := b.pending.eraseIdx i,
        window := ⟨now, .failure⟩ :: b.window,
        counters := { b.counters with failures := b.counters.failures + 1 } } now := by
  unfold finishAt
  rw [hp]
  simp [hpr]

theorem finishAt_nonprobe_hang (b : Breaker) (now i : Nat) (p : Pend)
    (hp : b.pending.get? i = some p) (hpr : p.isProbe = false) :
    finishAt b now i .hang =
      updateState { b with
        pending := b.pending.eraseIdx i,
        window := ⟨now, .timedOut⟩ :: b.window,
        counters := { b.counters with timeouts := b.counters.timeouts + 1 } } now := by
  unfold finishAt
  rw [hp]
  simp [hpr]

theorem finishAt_filtered (b : Breaker) (now i : Nat) (e : Nat) (p : Pend)
    (hp : b.pending.get? i = some p) (hpr : p.isProbe = false) :
    finishAt b now i (.fail true e) =
      { b with
        pending := b.pending.eraseIdx i,
        window := ⟨now, .filtered⟩ :: b.window,
        counters := { b.counters with filteredErrors := b.counters.filteredErrors + 1 } } := by
  unfold finishAt
  rw [hp]
  simp [hpr]

theorem finishAt_nonprobe_succeed (b : Breaker) (now i v : Nat) (p : Pend)
    (hp : b.pending.get? i = some p) (hpr : p.isProbe = false)
    (hC : b.cfg.cache = false) :
    finishAt b now i (.succeed v) =
      updateState { b with
        pending := b.pending.eraseIdx i,
        window := ⟨now, .success⟩ :: b.window,
        counters := { b.counters with successes := b.counters.successes + 1 } } now := by
  unfold finishAt
  rw [hp]
  simp [hpr, hC]

theorem finishAt_probe_succeed (b : Breaker) (now i v : Nat) (p : Pend)
    (hp : b.pending.get? i = some p) (hpr : p.isProbe = true) :
    (finishAt b now i (.succeed v)).st = .closed ∧
      (finishAt b now i (.succeed v)).window =
        clearFailures (⟨now, .success⟩ :: b.window) ∧
      (finishAt b now i (.succeed v)).pending = b.pending.eraseIdx i := by
  unfold finishAt
  rw [hp]
  cases hc : b.cfg.cache <;> simp [hpr, hc]

theorem finishAt_probe_down (b : Breaker) (now i : Nat) (beh : Beh) (p : Pend)
    (hp : b.pending.get? i = some p) (hpr : p.isProbe = true)
    (hbeh : ∀ v, beh ≠ .succeed v) :
    (finishAt b now i beh).st = .opened now := by
  unfold finishAt
  rw [hp]
  cases beh with
  | succeed v => exact absurd rfl (hbeh v)
  | fail filt e => cases filt <;> simp [hpr]
  | hang => simp [hpr]

theorem windowFires_cons (cfg : Options) (now : Nat) (r : WRec) (w : List WRec) :
    windowFires cfg now (r :: w) =
      (if recLive cfg now r && !(r.res == .filtered) then 1 else 0) +
        windowFires cfg now w := by
  unfold windowFires
  rcases h : (recLive cfg now r && !(r.res == .filtered)) <;>
    simp [List.filter_cons, h, Nat.add_comm]

theorem windowFailures_cons (cfg : Options) (now : Nat) (r : WRec) (w : List WRec) :
    windowFailures cfg now (r :: w) =
      (if recLive cfg now r && r.res == .failure then 1 else 0) +
        windowFailures cfg now w := by
  unfold windowFailures
  rcases h : (recLive cfg now r && r.res == .failure) <;>
    simp [List.filter_cons, h, Nat.add_comm]

theorem windowTimeouts_cons (cfg : Options) (now : Nat) (r : WRec) (w : List WRec) :
    windowTimeouts cfg now (r :: w) =
      (if recLive cfg now r && r.res == .timedOut then 1 else 0) +
        windowTimeouts cfg now w := by
  unfold windowTimeouts
  rcases h : (recLive cfg now r && r.res == .timedOut) <;>
    simp [List.filter_cons, h, Nat.add_comm]

theorem recLive_now (cfg : Options) (now : Nat) (res : FiredRes)
    (hrct : 0 < cfg.rollingCountTimeout) :
    recLive cfg now ⟨now, res⟩ = true := by
  simp [recLive]
  omega

theorem windowFires_replicate_failure (cfg : Options) (t n : Nat)
    (hrct : 0 < cfg.rollingCountTimeout) :
    windowFires cfg t (List.replicate n ⟨t, .failure⟩) = n := by
  induction n with
  | zero => rfl
  | succ n ih =>
      rw [List.replicate_succ, windowFires_cons]
      simp [recLive_now cfg t _ hrct, ih, Nat.add_comm]

theorem windowFailures_replicate_failure (cfg : Options) (t n : Nat)
    (hrct : 0 < cfg.rollingCountTimeout) :
    windowFailures cfg t (List.replicate n ⟨t, .failure⟩) = n := by
  induction n with
  | zero => rfl
  | succ n ih =>
      rw [List.replicate_succ, windowFailures_cons]
      simp [recLive_now cfg t _ hrct, ih, Nat.add_comm]

theorem windowTimeouts_replicate_failure (cfg : Options) (t n : Nat) :
    windowTimeouts cfg t (List.replicate n ⟨t, .failure⟩) = 0 := by
  induction n with
  | zero => rfl
  | succ n ih =>
      rw [List.replicate_succ, windowTimeouts_cons]
      simp [ih]

theorem windowFailures_clearFailures (cfg : Options) (now : Nat) (w : List WRec) :
    windowFailures cfg now (clearFailures w) = 0 := by
  unfold windowFailures clearFailures
  rw [List.filter_filter]
  simp only [List.length_eq_zero, List.filter_eq_nil_iff]
  intro r hr
  cases hres : r.res <;> simp [hres]

theorem windowTimeouts_clearFailures (cfg : Options) (now : Nat) (w : List WRec) :
    windowTimeouts cfg now (clearFailures w) = 0 := by
  unfold windowTimeouts clearFailures
  rw [List.filter_filter]
  simp only [List.length_eq_zero, List.filter_eq_nil_iff]
  intro r hr
  cases hres : r.res <;> simp [hres]

theorem window_cons_filtered (cfg : Options) (now t : Nat) (w : List WRec) :
    windowFires cfg now (⟨t, .filtered⟩ :: w) = windowFires cfg now w ∧
      windowFailures cfg now (⟨t, .filtered⟩ :: w) = windowFailures cfg now w ∧
      windowTimeouts cfg now (⟨t, .filtered⟩ :: w) = windowTimeouts cfg now w := by
  rw [windowFires_cons, windowFailures_cons, windowTimeouts_cons]
  simp

theorem withFallback_snd (b b2 : Breaker) (fb? : Option (List Nat → Except Nat Nat))
    (args : List Nat) (fbArgs? : Option (List Nat)) :
    (withFallback b fb? args fbArgs?).2 = (withFallback b2 fb? args fbArgs?).2 := by
  cases fb? with
  | none => rfl
  | some f =>
      rcases hf : f (fbArgs?.getD args) with v | fe <;>
        simp [withFallback, hf]

theorem startCall_closed_preserved (b : Breaker) (now key : Nat) (hst : b.st = .closed) :
    (startCall b now key).1.st = .closed ∧
      (∀ isP, (startCall b now key).2 = .fired isP →
        isP = false ∧ (startCall b now key).1.pending = b.pending ++ [⟨key, false⟩]) := by
  have hTR : tickReset b now = b := tickReset_noop_closed b now hst
  cases hEn : b.cfg.enabled
  · simp [startCall, hEn, hst]
  · cases hc : b.cfg.cache
    · by_cases hCap : b.cfg.capacity ≤ b.pending.length
      · simp [startCall, hTR, hEn, hst, hc, if_pos hCap]
      · simp [startCall, hTR, hEn, hst, hc, if_neg hCap]
    · rcases hG : cacheGet b.cfg b.cacheStore now key with _ | v
      · by_cases hCap : b.cfg.capacity ≤ b.pending.length
        · simp [startCall, hTR, hEn, hst, hc, hG, if_pos hCap]
        · simp [startCall, hTR, hEn, hst, hc, hG, if_neg hCap]
      · simp [startCall, hTR, hEn, hst, hc, hG]

/-- Claim C9: the default option set documented on the API types page and
the default option set documented in the README are not equal: they differ
on timeout (10000 vs 3000), resetTimeout, capacity, volumeThreshold,
rollingPercentilesEnabled and enableSnapshots. -/
theorem documentedDefaultsConflict :
    docsDefaultOptions ≠ readmeDefaultOptions ∧
      docsDefaultOptions.timeout = 10000 ∧ readmeDefaultOptions.timeout = 3000 ∧
      docsDefaultOptions.resetTimeout ≠ readmeDefaultOptions.resetTimeout ∧
      docsDefaultOptions.capacity ≠ readmeDefaultOptions.capacity ∧
      docsDefaultOptions.volumeThreshold ≠ readmeDefaultOptions.volumeThreshold ∧
      docsDefaultOptions.rollingPercentilesEnabled ≠
        readmeDefaultOptions.rollingPercentilesEnabled ∧
      docsDefaultOptions.enableSnapshots ≠ readmeDefaultOptions.enableSnapshots := by
  refine ⟨?_, rfl, rfl, ?_, ?_, ?_, ?_, ?_⟩ <;> decide

/-- Claim C2: while a breaker is Open and the reset timeout has not yet
elapsed, every call is rejected fail-fast — the wrapped function is never
dispatched (no fire recorded, no permit taken), the state is unchanged, and
the outcome is recorded as a reject — except that a live cache entry is
still served as a cache hit when caching is enabled; once the reset timeout
elapses the breaker moves to HalfOpen. -/
theorem openRejectsFailFast :
    (∀ (b : Breaker) (oa now key : Nat),
        b.st = .opened oa → b.cfg.enabled = true →
        now < oa + b.cfg.resetTimeout →
        (b.cfg.cache = false ∨ cacheGet b.cfg b.cacheStore now key = none) →
        (startCall b now key).2 = .rejOpen ∧
          (startCall b now key).1.st = .opened oa ∧
          (startCall b now key).1.pending = b.pending ∧
          (startCall b now key).1.counters.fires = b.counters.fires ∧
          (startCall b now key).1.counters.rejects = b.counters.rejects + 1) ∧
    (∀ (b : Breaker) (oa now key v : Nat),
        b.st = .opened oa → b.cfg.enabled = true → b.cfg.cache = true →
        cacheGet b.cfg b.cacheStore now key = some v →
        (startCall b now key).2 = .cached v ∧
          (startCall b now key).1.counters.fires = b.counters.fires ∧
          (startCall b now key).1.pending = b.pending ∧
          (startCall b now key).1.counters.cacheHits = b.counters.cacheHits + 1) ∧
    (∀ (b : Breaker) (oa now : Nat),
        b.st = .opened oa → oa + b.cfg.resetTimeout ≤ now →
        (tickReset b now).st = .halfOpen false) := by
  refine ⟨?_, ?_, ?_⟩
  · intro b oa now key hst hEn hT hMiss
    obtain ⟨h1, h2, h3, _, h5, h6, _⟩ :=
      startCall_rejOpen_of_opened b oa now key hst hEn hT hMiss
    rw [hst] at h2
    exact ⟨h1, h2, h3, h5, h6⟩
  · intro b oa now key v _hst hEn hc hGet
    obtain ⟨h1, h2, _, h4, _, h6⟩ := startCall_cached b now key v hEn hc hGet
    exact ⟨h1, h4, h2, h6⟩
  · intro b oa now hst hT
    rw [tickReset_elapsed b oa now hst hT]

/-- Claim C3: in HalfOpen exactly one probe is allowed through — the first
arriving call is dispatched as the probe and marks the probe slot occupied;
every call arriving while the probe is in flight is rejected fail-fast
without dispatch; a successful probe closes the breaker and the window's
failure counters (failures and timeouts) are reset to zero; a probe that
fails, times out or throws re-opens the breaker with the reset timer
re-armed at the completion time. -/
theorem halfOpenSingleProbe :
    (∀ (b : Breaker) (now key : Nat),
        b.st = .halfOpen false → b.cfg.enabled = true →
        (b.cfg.cache = false ∨ cacheGet b.cfg b.cacheStore now key = none) →
        b.pending.length < b.cfg.capacity →
        (startCall b now key).2 = .fired true ∧
          (startCall b now key).1.st = .halfOpen true) ∧
    (∀ (b : Breaker) (now key : Nat),
        b.st = .halfOpen true → b.cfg.enabled = true →
        (b.cfg.cache = false ∨ cacheGet b.cfg b.cacheStore now key = none) →
        (startCall b now key).2 = .rejOpen ∧
          (startCall b now key).1.pending = b.pending ∧
          (startCall b now key).1.counters.fires = b.counters.fires) ∧
    (∀ (b : Breaker) (now i v : Nat) (p : Pend),
        b.pending.get? i = some p → p.isProbe = true →
        (finishAt b now i (.succeed v)).st = .closed ∧
          ∀ now2,
            windowFailures b.cfg now2 (finishAt b now i (.succeed v)).window = 0 ∧
              windowTimeouts b.cfg now2 (finishAt b now i (.succeed v)).window = 0) ∧
    (∀ (b : Breaker) (now i : Nat) (p : Pend) (beh : Beh),
        b.pending.get? i = some p → p.isProbe = true → (∀ v, beh ≠ .succeed v) →
        (finishAt b now i beh).st = .opened now) := by
  refine ⟨?_, ?_, ?_, ?_⟩
  · intro b now key hst hEn hMiss hCap
    obtain ⟨h1, h2, _, _⟩ := startCall_fired_probe b now key hst hEn hMiss hCap
    exact ⟨h1, h2⟩
  · intro b now key hst hEn hMiss
    obtain ⟨h1, _, h3, _, h5, _⟩ := startCall_rejOpen_of_probe b now key hst hEn hMiss
    exact ⟨h1, h3, h5⟩
  · intro b now i v p hp hpr
    obtain ⟨h1, h2, _⟩ := finishAt_probe_succeed b now i v p hp hpr
    refine ⟨h1, fun now2 => ?_⟩
    rw [h2]
    exact ⟨windowFailures_clearFailures _ _ _, windowTimeouts_clearFailures _ _ _⟩
  · intro b now i p beh hp hpr hbeh
    exact finishAt_probe_down b now i beh p hp hpr hbeh

/-- Claim C4: an error accepted by the error filter is recorded as neither
failure nor success against the open threshold and changes no component of
the error-rate computation over the rolling window, while the caller-visible
result is exactly the one an unfiltered failure would produce (propagated or
routed to the fallback); consequently any number of filtered errors leaves a
Closed breaker Closed. -/
theorem filteredErrorsExcluded :
    (∀ (b : Breaker) (now i e : Nat) (p : Pend),
        b.pending.get? i = some p → p.isProbe = false →
        (finishAt b now i (.fail true e)).counters.failures = b.counters.failures ∧
          (finishAt b now i (.fail true e)).counters.successes = b.counters.successes ∧
          (finishAt b now i (.fail true e)).counters.timeouts = b.counters.timeouts ∧
          (finishAt b now i (.fail true e)).st = b.st ∧
          ∀ now2,
            windowFires b.cfg now2 (finishAt b now i (.fail true e)).window =
                windowFires b.cfg now2 b.window ∧
              windowFailures b.cfg now2 (finishAt b now i (.fail true e)).window =
                windowFailures b.cfg now2 b.window ∧
              windowTimeouts b.cfg now2 (finishAt b now i (.fail true e)).window =
                windowTimeouts b.cfg now2 b.window) ∧
    (∀ (b : Breaker) (now key e : Nat) (fb? : Option (List Nat → Except Nat Nat))
        (args : List Nat) (fbArgs? : Option (List Nat)),
        (execute b now key (.fail true e) fb? args fbArgs?).2 =
          (execute b now key (.fail false e) fb? args fbArgs?).2) ∧
    (∀ (b : Breaker) (now key e n : Nat),
        b.st = .closed → (filteredCalls b now key e n).st = .closed) := by
  refine ⟨?_, ?_, ?_⟩
  · intro b now i e p hp hpr
    rw [finishAt_filtered b now i e p hp hpr]
    refine ⟨rfl, rfl, rfl, rfl, fun now2 => ?_⟩
    exact window_cons_filtered b.cfg now2 now b.window
  · intro b now key e fb? args fbArgs?
    unfold execute
    rcases hs : startCall b now key with ⟨b1, d⟩
    cases d
    · rfl
    · rfl
    · rfl
    · rfl
    · exact withFallback_snd _ _ fb? args fbArgs?
  · intro b now key e n hst
    induction n with
    | zero => exact hst
    | succ n ih =>
        show (execute (filteredCalls b now key e n) now key (.fail true e) none [] none).1.st
          = .closed
        set c := filteredCalls b now key e n with hc
        obtain ⟨hcs, hfire⟩ := startCall_closed_preserved c now key ih
        unfold execute
        rcases hs : startCall c now key with ⟨b1, d⟩
        rw [hs] at hcs hfire
        cases d with
        | bypass => exact hcs
        | cached v => exact hcs
        | rejOpen => exact hcs
        | rejCapacity => exact hcs
        | fired isP =>
            obtain ⟨hP, hPend⟩ := hfire isP rfl
            subst hP
            have hlen : b1.pending.length - 1 = c.pending.length := by
              rw [hPend]
              simp
            have hget : b1.pending.get? (b1.pending.length - 1) =
                some ⟨key, false⟩ := by
              rw [hlen, hPend]
              exact List.get?_concat_length c.pending ⟨key, false⟩
            have := finishAt_filtered b1 now (b1.pending.length - 1) e ⟨key, false⟩ hget rfl
            simp only [this]
            exact hcs

theorem startCall_not_bypass (b : Breaker) (now key : Nat)
    (hEn : b.cfg.enabled = true) : (startCall b now key).2 ≠ .bypass := by
  unfold startCall
  simp only [hEn, Bool.not_true, Bool.false_eq_true, if_false]
  repeat' split <;> simp_all

theorem startCall_not_cached (b : Breaker) (now key : Nat)
    (hMissD : b.cfg.cache = false ∨ cacheGet b.cfg b.cacheStore now key = none) :
    ∀ v, (startCall b now key).2 ≠ .cached v := by
  intro v
  have hM := cacheCheck_none b now key hMissD
  rw [show (if b.cfg.cache then cacheGet b.cfg b.cacheStore now key else none) =
      (if (tickReset b now).cfg.cache then
        cacheGet (tickReset b now).cfg (tickReset b now).cacheStore now key else none) by
    rw [tickReset_cfg, tickReset_cacheStore]] at hM
  unfold startCall
  cases hEn : b.cfg.enabled
  · simp
  · simp only [Bool.not_true, Bool.false_eq_true, if_false]
    rw [hM]
    repeat' split <;> simp_all

theorem withFallback_snd_none (b : Breaker) (args : List Nat)
    (fbArgs? : Option (List Nat)) :
    (withFallback b none args fbArgs?).2 = .error .unavailable := rfl

theorem withFallback_snd_ok (b : Breaker) (f : List Nat → Except Nat Nat)
    (args : List Nat) (fbArgs? : Option (List Nat)) (v : Nat)
    (hf : f (fbArgs?.getD args) = .ok v) :
    (withFallback b (some f) args fbArgs?).2 = .ok v := by
  simp [withFallback, hf]

theorem withFallback_snd_err (b : Breaker) (f : List Nat → Except Nat Nat)
    (args : List Nat) (fbArgs? : Option (List Nat)) (fe : Nat)
    (hf : f (fbArgs?.getD args) = .error fe) :
    (withFallback b (some f) args fbArgs?).2 = .error (.fallbackFailure fe) := by
  simp [withFallback, hf]

theorem execute_fail_snd (b : Breaker) (now key e : Nat)
    (fb? : Option (List Nat → Except Nat Nat)) (args : List Nat)
    (fbArgs? : Option (List Nat)) (hEn : b.cfg.enabled = true)
    (hMissD : b.cfg.cache = false ∨ cacheGet b.cfg b.cacheStore now key = none) :
    (execute b now key (.fail false e) fb? args fbArgs?).2 =
      (withFallback b fb? args fbArgs?).2 := by
  have hB := startCall_not_bypass b now key hEn
  have hC := startCall_not_cached b now key hMissD
  unfold execute
  rcases hs : startCall b now key with ⟨b1, d⟩
  rw [hs] at hB hC
  cases d with
  | bypass => exact absurd rfl hB
  | cached v => exact absurd rfl (hC v)
  | rejOpen => exact withFallback_snd b1 b fb? args fbArgs?
  | rejCapacity => exact withFallback_snd b1 b fb? args fbArgs?
  | fired isP => exact withFallback_snd _ b fb? args fbArgs?

/-- Claim C5: for a call whose primary path fails or is rejected while the
breaker is enabled (and not served from cache): a supplied fallback is
invoked with fallbackArgs, or with the original args when fallbackArgs is
unset, and its value is returned to the caller; a throwing fallback's error
propagates to the caller as a fallback failure; and with no fallback the
call fails with the "service unavailable" error. -/
theorem fallbackPath :
    (∀ (b : Breaker) (now key e v : Nat) (f : List Nat → Except Nat Nat)
        (args : List Nat) (fbArgs? : Option (List Nat)),
        b.cfg.enabled = true →
        (b.cfg.cache = false ∨ cacheGet b.cfg b.cacheStore now key = none) →
        f (fbArgs?.getD args) = .ok v →
        (execute b now key (.fail false e) (some f) args fbArgs?).2 = .ok v) ∧
    (∀ (b : Breaker) (now key e fe : Nat) (f : List Nat → Except Nat Nat)
        (args : List Nat) (fbArgs? : Option (List Nat)),
        b.cfg.enabled = true →
        (b.cfg.cache = false ∨ cacheGet b.cfg b.cacheStore now key = none) →
        f (fbArgs?.getD args) = .error fe →
        (execute b now key (.fail false e) (some f) args fbArgs?).2 =
          .error (.fallbackFailure fe)) ∧
    (∀ (b : Breaker) (now key e : Nat) (args : List Nat)
        (fbArgs? : Option (List Nat)),
        b.cfg.enabled = true →
        (b.cfg.cache = false ∨ cacheGet b.cfg b.cacheStore now key = none) →
        (execute b now key (.fail false e) none args fbArgs?).2 =
          .error .unavailable) := by
  refine ⟨?_, ?_, ?_⟩
  · intro b now key e v f args fbArgs? hEn hMissD hf
    rw [execute_fail_snd b now key e (some f) args fbArgs? hEn hMissD]
    exact withFallback_snd_ok b f args fbArgs? v hf
  · intro b now key e fe f args fbArgs? hEn hMissD hf
    rw [execute_fail_snd b now key e (some f) args fbArgs? hEn hMissD]
    exact withFallback_snd_err b f args fbArgs? fe hf
  · intro b now key e args fbArgs? hEn hMissD
    rw [execute_fail_snd b now key e none args fbArgs? hEn hMissD]
    rfl

theorem finishAt_counters_pending (b : Breaker) (now i : Nat) (beh : Beh)
    (p : Pend) (hp : b.pending.get? i = some p) :
    (finishAt b now i beh).pending = b.pending.eraseIdx i ∧
      (finishAt b now i beh).counters =
        (match beh with
          | .succeed _ =>
              { b.counters with successes := b.counters.successes + 1 }
          | .fail true _ =>
              { b.counters with filteredErrors := b.counters.filteredErrors + 1 }
          | .fail false _ =>
              { b.counters with failures := b.counters.failures + 1 }
          | .hang => { b.counters with timeouts := b.counters.timeouts + 1 }) := by
  unfold finishAt
  rw [hp]
  cases beh with
  | succeed v =>
      cases hc : b.cfg.cache <;> cases hpr : p.isProbe <;>
        simp [hc, hpr, updateState_pending, updateState_counters]
  | fail filt e =>
      cases filt <;> cases hpr : p.isProbe <;>
        simp [hpr, updateState_pending, updateState_counters]
  | hang =>
      cases hpr : p.isProbe <;>
        simp [hpr, updateState_pending, updateState_counters]

theorem length_eraseIdx_of_get? (l : List Pend) (i : Nat) (p : Pend)
    (hp : l.get? i = some p) : (l.eraseIdx i).length + 1 = l.length := by
  have hi : i < l.length := by
    by_contra hcon
    rw [List.get?_eq_none.mpr (by omega)] at hp
    exact Option.noConfusion hp
  rw [List.length_eraseIdx]
  simp [hi]
  omega

/-- Claim C6: when the concurrency capacity is exhausted, an arriving call
is rejected immediately as semaphore-locked without the wrapped function
being dispatched, counted in its own counter distinct from breaker-open
rejects; every held permit is released on every completion path (success,
failure or timeout), so a completing call frees a slot and the next call is
dispatched again. -/
theorem capacityGate :
    (∀ (b : Breaker) (now key : Nat),
        b.st = .closed → b.cfg.enabled = true →
        (b.cfg.cache = false ∨ cacheGet b.cfg b.cacheStore now key = none) →
        b.cfg.capacity ≤ b.pending.length →
        (startCall b now key).2 = .rejCapacity ∧
          (startCall b now key).1.pending = b.pending ∧
          (startCall b now key).1.counters.fires = b.counters.fires ∧
          (startCall b now key).1.counters.semaphoreLocked =
            b.counters.semaphoreLocked + 1 ∧
          (startCall b now key).1.counters.rejects = b.counters.rejects) ∧
    (∀ (b : Breaker) (now i : Nat) (beh : Beh) (p : Pend),
        b.pending.get? i = some p →
        (finishAt b now i beh).pending.length + 1 = b.pending.length) ∧
    (∀ (b : Breaker) (now now2 i v key2 : Nat) (p : Pend),
        b.st = .closed → b.cfg.enabled = true → b.cfg.cache = false →
        b.pending.length = b.cfg.capacity →
        b.pending.get? i = some p →
        (finishAt b now i (.succeed v)).st = .closed →
        (startCall (finishAt b now i (.succeed v)) now2 key2).2 =
          .fired false) := by
  refine ⟨?_, ?_, ?_⟩
  · intro b now key hst hEn hMissD hCap
    obtain ⟨h1, _, h3, _, h5, h6, h7⟩ :=
      startCall_semaphore b now key hst hEn hMissD hCap
    exact ⟨h1, h3, h5, h6, h7⟩
  · intro b now i beh p hp
    obtain ⟨h1, _⟩ := finishAt_counters_pending b now i beh p hp
    rw [h1]
    exact length_eraseIdx_of_get? b.pending i p hp
  · intro b now now2 i v key2 p hst hEn hC hFull hp hst2
    obtain ⟨h1, _⟩ := finishAt_counters_pending b now i (.succeed v) p hp
    have hlen := length_eraseIdx_of_get? b.pending i p hp
    have hcf : (finishAt b now i (.succeed v)).cfg = b.cfg := finishAt_cfg b now i _
    obtain ⟨hd, _⟩ := startCall_fired_closed (finishAt b now i (.succeed v)) now2 key2
      hst2 (by rw [hcf]; exact hEn) (.inl (by rw [hcf]; exact hC))
      (by rw [hcf, h1]; omega)
    exact hd

/-- Claim C8: a value stored in the cache under key K with the configured
TTL is returned by every lookup strictly within the TTL and missed once the
TTL has elapsed; a TTL of 0 never expires until an explicit flush, and a
flush empties the cache; at the breaker level a live cache entry is served
as a cache hit without dispatching the wrapped function and without
touching the failure statistics. -/
theorem cacheTTLBehaviour :
    (∀ (cfg : Options) (store : List CEntry) (now now2 key v : Nat),
        cacheGet cfg store now key = none →
        (cfg.cacheTTL = 0 ∨ now2 < now + cfg.cacheTTL) →
        cacheGet cfg (cacheSet cfg store now key v) now2 key = some v) ∧
    (∀ (cfg : Options) (store : List CEntry) (now now2 key v : Nat),
        cacheGet cfg store now key = none → cfg.cacheTTL ≠ 0 →
        now + cfg.cacheTTL ≤ now2 →
        cacheGet cfg (cacheSet cfg store now key v) now2 key = none) ∧
    (∀ (cfg : Options) (store : List CEntry) (now key : Nat),
        cacheGet cfg (cacheFlush store) now key = none) ∧
    (∀ (b : Breaker) (now key v : Nat) (beh : Beh)
        (fb? : Option (List Nat → Except Nat Nat)) (args : List Nat)
        (fbArgs? : Option (List Nat)),
        b.cfg.enabled = true → b.cfg.cache = true →
        cacheGet b.cfg b.cacheStore now key = some v →
        (execute b now key beh fb? args fbArgs?).2 = .ok v ∧
          (execute b now key beh fb? args fbArgs?).1.counters.fires =
            b.counters.fires ∧
          (execute b now key beh fb? args fbArgs?).1.counters.failures =
            b.counters.failures ∧
          (execute b now key beh fb? args fbArgs?).1.window = b.window ∧
          (execute b now key beh fb? args fbArgs?).1.pending = b.pending ∧
          (execute b now key beh fb? args fbArgs?).1.counters.cacheHits =
            b.counters.cacheHits + 1) := by
  refine ⟨?_, ?_, ?_, ?_⟩
  · intro cfg store now now2 key v hMiss hLive
    have hF : store.find? (fun e => e.key == key && entryLive cfg now e) = none := by
      unfold cacheGet at hMiss
      exact Option.map_eq_none.mp hMiss
    unfold cacheSet
    rw [hF]
    unfold cacheGet
    rw [List.find?_cons_of_pos]
    · rfl
    · simp [entryLive]
      rcases hLive with h | h
      · exact Or.inl (by simpa using h)
      · exact Or.inr (by omega)
  · intro cfg store now now2 key v hMiss hTTL hAfter
    have hF : store.find? (fun e => e.key == key && entryLive cfg now e) = none := by
      unfold cacheGet at hMiss
      exact Option.map_eq_none.mp hMiss
    unfold cacheSet
    rw [hF]
    unfold cacheGet
    rw [List.find?_cons_of_neg]
    · rw [List.find?_eq_none.mpr]
      · rfl
      · intro e he
        have := (List.mem_filter.mp he).2
        simp at this
        simp [this]
    · simp [entryLive]
      exact ⟨hTTL, by omega⟩
  · intro cfg store now key
    rfl
  · intro b now key v beh fb? args fbArgs? hEn hc hGet
    obtain ⟨h1, h2, h3, h4, h5, h6⟩ := startCall_cached b now key v hEn hc hGet
    unfold execute
    rcases hs : startCall b now key with ⟨b1, d⟩
    rw [hs] at h1 h2 h3 h4 h5 h6
    simp only at h1
    subst h1
    exact ⟨rfl, h4, h5, h3, h2, h6⟩

/-- Claim C7: registry resolution is idempotent — the first reference to a
name creates and stores a breaker carrying the supplied configuration; a
second resolve with the same name returns the very same stored instance and
leaves the registry unchanged, ignoring the later options; and executing
calls never changes a breaker's configuration, so overrides supplied after
the first execution are never merged in. -/
theorem registryResolveIdempotent :
    (∀ (r : Registry) (name : String) (o : Options) (now : Nat),
        r.breakers.find? (fun q => q.1 == name) = none →
          (resolve r name o now).2.cfg = o ∧
            (resolve r name o now).1.breakers =
              (name, mkBreaker o now) :: r.breakers) ∧
    (∀ (r : Registry) (name : String) (o o2 : Options) (now now2 : Nat),
        resolve (resolve r name o now).1 name o2 now2 =
          ((resolve r name o now).1, (resolve r name o now).2)) ∧
    (∀ (b : Breaker) (now key : Nat) (beh : Beh)
        (fb? : Option (List Nat → Except Nat Nat)) (args : List Nat)
        (fbArgs? : Option (List Nat)),
        (execute b now key beh fb? args fbArgs?).1.cfg = b.cfg) := by
  refine ⟨?_, ?_, ?_⟩
  · intro r name o now hF
    unfold resolve
    rw [hF]
    exact ⟨rfl, rfl⟩
  · intro r name o o2 now now2
    unfold resolve
    rcases hF : r.breakers.find? (fun q => q.1 == name) with _ | q
    · rw [hF]
      dsimp only
      rw [List.find?_cons_of_pos _ (by simp)]
    · simp [hF]
  · intro b now key beh fb? args fbArgs?
    exact execute_cfg b now key beh fb? args fbArgs?

theorem updateState_st_closed (b : Breaker) (now : Nat) (hst : b.st = .closed) :
    (updateState b now).st =
      if shouldOpen b.cfg b.createdAt now b.window = true then .opened now
      else .closed := by
  rw [updateState_closed b now hst]
  split <;> simp [hst]

theorem finishAt_st_closed (b : Breaker) (now i : Nat) (beh : Beh) (p : Pend)
    (hp : b.pending.get? i = some p) (hpr : p.isProbe = false)
    (hst : b.st = .closed) (hnf : recOf beh ≠ .filtered) :
    (finishAt b now i beh).st =
      if shouldOpen b.cfg b.createdAt now (⟨now, recOf beh⟩ :: b.window) = true
      then BState.opened now else BState.closed := by
  unfold finishAt updateState
  rw [hp]
  cases beh with
  | succeed v =>
      cases hc : b.cfg.cache <;>
        simp only [hpr, hc, recOf, Bool.false_eq_true, if_false, if_true, ite_true,
          ite_false, Bool.true_eq_false] <;>
        (try split) <;>
        (first
          | (exact absurd hst (by assumption))
          | (simp [hst]; (try (split <;> rfl))))
  | fail filt e =>
      cases filt
      · simp only [hpr, recOf, Bool.false_eq_true, if_false]
        simp [hst]
        split <;> rfl
      · exact absurd rfl hnf
  | hang =>
      simp only [hpr, recOf, Bool.false_eq_true, if_false]
      simp [hst]
      split <;> rfl

/-- Claim C1: a Closed breaker transitions to Open exactly when, evaluated
right after a completed call's outcome is recorded, the live rolling window
holds at least volumeThreshold fired requests and the cross-multiplied
error rate (failures+timeouts over fires, times 100) reaches
errorThresholdPercentage; in particular a fresh breaker taken through N
consecutive unfiltered failures with volumeThreshold ≤ N, 1 ≤ N and an
error threshold of at most 100% is Open before the (N+1)th call. -/
theorem closedOpensExactlyAtThreshold :
    (∀ (b : Breaker) (now i : Nat) (p : Pend) (beh : Beh),
        b.st = .closed → b.cfg.allowWarmUp = false →
        0 < b.cfg.rollingCountTimeout →
        b.pending.get? i = some p → p.isProbe = false →
        recOf beh ≠ .filtered →
        ((finishAt b now i beh).st = .opened now ↔
          (b.cfg.volumeThreshold ≤
              windowFires b.cfg now (⟨now, recOf beh⟩ :: b.window) ∧
            b.cfg.errorThresholdPercentage *
                windowFires b.cfg now (⟨now, recOf beh⟩ :: b.window) ≤
              (windowFailures b.cfg now (⟨now, recOf beh⟩ :: b.window) +
                  windowTimeouts b.cfg now (⟨now, recOf beh⟩ :: b.window)) *
                100))) ∧
    (∀ (cfg : Options) (t N : Nat),
        cfg.enabled = true → cfg.allowWarmUp = false → cfg.cache = false →
        0 < cfg.capacity → 0 < cfg.resetTimeout →
        0 < cfg.rollingCountTimeout →
        cfg.errorThresholdPercentage ≤ 100 → cfg.volumeThreshold ≤ N →
        1 ≤ N → (failTrace cfg t N).st = .opened t) := by
  constructor
  · intro b now i p beh hst hW hrct hp hpr hnf
    have hkey := finishAt_st_closed b now i beh p hp hpr hst hnf
    have hnfb : ((recOf beh) == FiredRes.filtered) = false := by
      simp [hnf]
    have hwf : 0 < windowFires b.cfg now (⟨now, recOf beh⟩ :: b.window) := by
      rw [windowFires_cons]
      simp [recLive_now b.cfg now _ hrct, hnfb]
    have hSO :
        (shouldOpen b.cfg b.createdAt now (⟨now, recOf beh⟩ :: b.window) = true) ↔
          (b.cfg.volumeThreshold ≤
              windowFires b.cfg now (⟨now, recOf beh⟩ :: b.window) ∧
            b.cfg.errorThresholdPercentage *
                windowFires b.cfg now (⟨now, recOf beh⟩ :: b.window) ≤
              (windowFailures b.cfg now (⟨now, recOf beh⟩ :: b.window) +
                  windowTimeouts b.cfg now (⟨now, recOf beh⟩ :: b.window)) *
                100) := by
      unfold shouldOpen
      simp [hW, hwf]
    rw [hkey]
    constructor
    · intro hOp
      have hcond : shouldOpen b.cfg b.createdAt now
          (⟨now, recOf beh⟩ :: b.window) = true := by
        by_contra hno
        rw [if_neg hno] at hOp
        exact BState.noConfusion hOp
      exact hSO.mp hcond
    · intro hR
      rw [if_pos (hSO.mpr hR)]
  · intro cfg t N hEn hW hC hCap hRT hRCT hETP hVT hN
    have hSOr : ∀ (caX : Nat) (n : Nat),
        shouldOpen cfg caX t (List.replicate (n + 1) ⟨t, .failure⟩) =
          decide (cfg.volumeThreshold ≤ n + 1) := by
      intro caX n
      unfold shouldOpen
      rw [windowFires_replicate_failure cfg t (n + 1) hRCT,
        windowFailures_replicate_failure cfg t (n + 1) hRCT,
        windowTimeouts_replicate_failure cfg t (n + 1)]
      have hq : cfg.errorThresholdPercentage * (n + 1) ≤ (n + 1 + 0) * 100 :=
        calc cfg.errorThresholdPercentage * (n + 1) ≤ 100 * (n + 1) :=
              Nat.mul_le_mul_right (n + 1) hETP
          _ = (n + 1 + 0) * 100 := by ring
      simp [hW, hq]
    have step : ∀ n,
        (failTrace cfg t n).cfg = cfg ∧
          (((failTrace cfg t n).st = .closed ∧
              (failTrace cfg t n).window = List.replicate n ⟨t, .failure⟩ ∧
              (failTrace cfg t n).pending = [] ∧
              (n = 0 ∨ ¬ cfg.volumeThreshold ≤ n)) ∨
            ((failTrace cfg t n).st = .opened t ∧
              cfg.volumeThreshold ≤ n ∧ 1 ≤ n)) := by
      intro n
      induction n with
      | zero => exact ⟨rfl, Or.inl ⟨rfl, rfl, rfl, Or.inl rfl⟩⟩
      | succ n ih =>
          obtain ⟨hcfg, hcase⟩ := ih
          have hstep : failTrace cfg t (n + 1) =
              (execute (failTrace cfg t n) t 0 (.fail false 0) none [] none).1 :=
            rfl
          set c := failTrace cfg t n with hcdef
          have hccfg : (startCall c t 0).1.cfg = c.cfg := startCall_cfg c t 0
          rcases hcase with ⟨hst, hwin, hpend, _⟩ | ⟨hst, hge, hpos⟩
          · obtain ⟨d2, dst, dpend, dwin, _, _, _, _, _, _⟩ :=
              startCall_fired_closed c t 0 hst (by rw [hcfg]; exact hEn)
                (Or.inl (by rw [hcfg]; exact hC))
                (by rw [hcfg, hpend]; simpa using hCap)
            rw [hstep]
            unfold execute
            rcases hs : startCall c t 0 with ⟨b1, d⟩
            rw [hs] at d2 dst dpend dwin hccfg
            simp only at d2 dst dpend dwin hccfg
            subst d2
            rw [hpend] at dpend
            simp only [List.nil_append] at dpend
            have hb1cfg : b1.cfg = cfg := by rw [hccfg, hcfg]
            have hlen : b1.pending.length - 1 = 0 := by rw [dpend]; rfl
            have hget : b1.pending.get? 0 = some ⟨0, false⟩ := by
              rw [dpend]; rfl
            have hfin := finishAt_nonprobe_fail b1 t 0 0 ⟨0, false⟩ hget rfl
            simp only [hlen, hfin]
            set X : Breaker :=
              { b1 with
                pending := b1.pending.eraseIdx 0,
                window := ⟨t, .failure⟩ :: b1.window,
                counters :=
                  { b1.counters with failures := b1.counters.failures + 1 } }
              with hXdef
            have hXst : X.st = .closed := dst
            have hXwin : X.window = List.replicate (n + 1) ⟨t, .failure⟩ := by
              show ⟨t, .failure⟩ :: b1.window = _
              rw [dwin, hwin, List.replicate_succ]
            have hXpend : X.pending = [] := by
              show b1.pending.eraseIdx 0 = []
              rw [dpend]
              rfl
            have hXcfg : X.cfg = cfg := hb1cfg
            rw [updateState_closed X t hXst, hXcfg, hXwin, hSOr X.createdAt n]
            by_cases hv : cfg.volumeThreshold ≤ n + 1
            · rw [if_pos (by simpa using hv)]
              exact ⟨by first | rfl | exact hXcfg,
                Or.inr ⟨rfl, hv, Nat.succ_le_succ (Nat.zero_le n)⟩⟩
            · rw [if_neg (by simpa using hv)]
              exact ⟨by first | rfl | exact hXcfg,
                Or.inl ⟨hXst, hXwin, hXpend, Or.inr hv⟩⟩
          · obtain ⟨d2, dst, _, _, _, _, _⟩ :=
              startCall_rejOpen_of_opened c t t 0 hst (by rw [hcfg]; exact hEn)
                (by rw [hcfg]; omega) (Or.inl (by rw [hcfg]; exact hC))
            rw [hstep]
            unfold execute
            rcases hs : startCall c t 0 with ⟨b1, d⟩
            rw [hs] at d2 dst hccfg
            simp only at d2 dst hccfg
            subst d2
            rw [hst] at dst
            exact ⟨hccfg.trans hcfg, Or.inr ⟨dst, by omega, by omega⟩⟩
    obtain ⟨_, hcase⟩ := step N
    rcases hcase with ⟨_, _, _, hsmall⟩ | ⟨hst, _, _⟩
    · rcases hsmall with h0 | hv
      · omega
      · exact absurd hVT hv
    · exact hst

theorem withFallback_acc (b : Breaker) (fb? : Option (List Nat → Except Nat Nat))
    (args : List Nat) (fbArgs? : Option (List Nat)) (h : accBalanced b) :
    accBalanced (withFallback b fb? args fbArgs?).1 := by
  cases fb? with
  | none => exact h
  | some f =>
      rcases hf : f (fbArgs?.getD args) with v | fe <;>
        simpa [withFallback, hf, accBalanced] using h

theorem startCall_acc (b : Breaker) (now key : Nat) (h : accBalanced b) :
    accBalanced (startCall b now key).1 := by
  have hc1 : (tickReset b now).counters = b.counters := tickReset_counters b now
  have hc2 : (tickReset b now).pending = b.pending := tickReset_pending b now
  unfold accBalanced at h ⊢
  unfold startCall
  cases hEn : b.cfg.enabled
  · simpa using h
  · simp only [hEn, Bool.not_true, Bool.false_eq_true, if_false]
    rcases hG : (if (tickReset b now).cfg.cache then
        cacheGet (tickReset b now).cfg (tickReset b now).cacheStore now key
      else none) with _ | v
    · cases hcc : (tickReset b now).cfg.cache
      case false =>
        simp only [hcc, Bool.false_eq_true, if_false]
        rcases hstt : (tickReset b now).st with _ | oa | pr
        · by_cases hcap : (tickReset b now).cfg.capacity ≤
              (tickReset b now).pending.length
          · simp only [hstt, if_pos hcap]
            simp [hc1, hc2]
            omega
          · simp only [hstt, if_neg hcap]
            simp [hc1, hc2]
            omega
        · simp only [hstt]
          simp [hc1, hc2]
          omega
        · cases pr
          · by_cases hcap : (tickReset b now).cfg.capacity ≤
                (tickReset b now).pending.length
            · simp only [hstt, if_pos hcap]
              simp [hc1, hc2]
              omega
            · simp only [hstt, if_neg hcap]
              simp [hc1, hc2]
              omega
          · simp only [hstt]
            simp [hc1, hc2]
            omega
      case true =>
        simp only [hcc, if_true, ite_true]
        rcases hstt : (tickReset b now).st with _ | oa | pr
        · by_cases hcap : (tickReset b now).cfg.capacity ≤
              (tickReset b now).pending.length
          · simp only [hstt, if_pos hcap]
            simp [hc1, hc2]
            omega
          · simp only [hstt, if_neg hcap]
            simp [hc1, hc2]
            omega
        · simp only [hstt]
          simp [hc1, hc2]
          omega
        · cases pr
          · by_cases hcap : (tickReset b now).cfg.capacity ≤
                (tickReset b now).pending.length
            · simp only [hstt, if_pos hcap]
              simp [hc1, hc2]
              omega
            · simp only [hstt, if_neg hcap]
              simp [hc1, hc2]
              omega
          · simp only [hstt]
            simp [hc1, hc2]
            omega
    · simp [hc1, hc2]
      omega

theorem finishAt_acc (b : Breaker) (now i : Nat) (beh : Beh)
    (h : accBalanced b) : accBalanced (finishAt b now i beh) := by
  rcases hp : b.pending.get? i with _ | p
  · rw [finishAt_invalid b now i beh hp]
    exact h
  · obtain ⟨h1, h2⟩ := finishAt_counters_pending b now i beh p hp
    have hlen := length_eraseIdx_of_get? b.pending i p hp
    unfold accBalanced at h ⊢
    cases beh with
    | succeed v =>
        rw [h1, h2]
        (try dsimp only)
        omega
    | fail filt e =>
        cases filt <;> rw [h1, h2] <;> (try dsimp only) <;> omega
    | hang =>
        rw [h1, h2]
        (try dsimp only)
        omega

theorem execute_acc (b : Breaker) (now key : Nat) (beh : Beh)
    (fb? : Option (List Nat → Except Nat Nat)) (args : List Nat)
    (fbArgs? : Option (List Nat)) (h : accBalanced b) :
    accBalanced (execute b now key beh fb? args fbArgs?).1 := by
  have hsc := startCall_acc b now key h
  unfold execute
  rcases hs : startCall b now key with ⟨b1, d⟩
  rw [hs] at hsc
  cases d with
  | bypass => exact hsc
  | cached v => exact hsc
  | rejOpen => exact withFallback_acc b1 fb? args fbArgs? hsc
  | rejCapacity => exact withFallback_acc b1 fb? args fbArgs? hsc
  | fired isP =>
      cases beh with
      | succeed v => exact finishAt_acc b1 now _ _ hsc
      | fail filt e =>
          exact withFallback_acc _ fb? args fbArgs? (finishAt_acc b1 now _ _ hsc)
      | hang =>
          exact withFallback_acc _ fb? args fbArgs? (finishAt_acc b1 now _ _ hsc)

theorem stepEv_acc (b : Breaker) (ev : Ev) (h : accBalanced b) :
    accBalanced (stepEv b ev) := by
  cases ev with
  | start t key => exact startCall_acc b t key h
  | finish t i beh => exact finishAt_acc b t i beh h
  | call t key beh => exact execute_acc b t key beh none [] none h

theorem runTrace_acc (b : Breaker) (evs : List Ev) (h : accBalanced b) :
    accBalanced (runTrace b evs) := by
  induction evs generalizing b with
  | nil => exact h
  | cons e es ih => exact ih (stepEv b e) (stepEv_acc b e h)

/-- Claim C10 (amended): cumulative fires count exactly the calls dispatched
to the wrapped function, so over every trace from a fresh breaker fires =
successes + failures + timeouts + filtered errors + in-flight calls; in
particular whenever no error was filtered and no call is in flight,
successes + failures + timeouts = fires, while rejects and semaphoreLocked
are recorded only in their own counters. -/
theorem statsAccounting :
    (∀ (cfg : Options) (t0 : Nat) (evs : List Ev),
        (runTrace (mkBreaker cfg t0) evs).counters.fires =
          (runTrace (mkBreaker cfg t0) evs).counters.successes +
            (runTrace (mkBreaker cfg t0) evs).counters.failures +
            (runTrace (mkBreaker cfg t0) evs).counters.timeouts +
            (runTrace (mkBreaker cfg t0) evs).counters.filteredErrors +
            (runTrace (mkBreaker cfg t0) evs).pending.length) ∧
    (∀ (cfg : Options) (t0 : Nat) (evs : List Ev),
        (runTrace (mkBreaker cfg t0) evs).counters.filteredErrors = 0 →
        (runTrace (mkBreaker cfg t0) evs).pending = [] →
        (runTrace (mkBreaker cfg t0) evs).counters.fires =
          (runTrace (mkBreaker cfg t0) evs).counters.successes +
            (runTrace (mkBreaker cfg t0) evs).counters.failures +
            (runTrace (mkBreaker cfg t0) evs).counters.timeouts) := by
  have base : ∀ (cfg : Options) (t0 : Nat), accBalanced (mkBreaker cfg t0) := by
    intro cfg t0
    rfl
  constructor
  · intro cfg t0 evs
    exact runTrace_acc (mkBreaker cfg t0) evs (base cfg t0)
  · intro cfg t0 evs hf hp
    have hrun := runTrace_acc (mkBreaker cfg t0) evs (base cfg t0)
    unfold accBalanced at hrun
    rw [hf, hp] at hrun
    simpa using hrun

/-- Claim C10 counterexample: one filtered error on a fresh breaker with the
README defaults yields a completed snapshot (no call in flight, nothing
rejected) whose fires counter is 1 while successes + failures + timeouts is
0, refuting successes + failures + timeouts = fires. -/
theorem statsFiresCounterexample :
    (runTrace (mkBreaker readmeDefaultOptions 0)
        [.call 0 0 (.fail true 0)]).counters.fires = 1 ∧
      (runTrace (mkBreaker readmeDefaultOptions 0)
            [.call 0 0 (.fail true 0)]).counters.successes +
          (runTrace (mkBreaker readmeDefaultOptions 0)
            [.call 0 0 (.fail true 0)]).counters.failures +
          (runTrace (mkBreaker readmeDefaultOptions 0)
            [.call 0 0 (.fail true 0)]).counters.timeouts = 0 ∧
      (runTrace (mkBreaker readmeDefaultOptions 0)
          [.call 0 0 (.fail true 0)]).pending = [] ∧
      (runTrace (mkBreaker readmeDefaultOptions 0)
          [.call 0 0 (.fail true 0)]).counters.rejects = 0 ∧
      (runTrace (mkBreaker readmeDefaultOptions 0)
          [.call 0 0 (.fail true 0)]).counters.semaphoreLocked = 0 := by
  decide

/-- Witness for C1: with a 50% threshold, volume threshold 4 and reset
timeout 1000, four consecutive failures leave the breaker Open. -/
theorem closedOpensExactlyAtThreshold_witness :
    (failTrace cfgW 0 4).st = .opened 0 :=
  closedOpensExactlyAtThreshold.2 cfgW 0 4 rfl rfl rfl (by decide) (by decide)
    (by decide) (by decide) (by decide) (by decide)

/-- Witness for C2: a breaker opened at time 0 rejects a call at 500 ms
without firing, and at 1000 ms the reset timer moves it to HalfOpen. -/
theorem openRejectsFailFast_witness :
    (startCall openBreaker 500 0).2 = .rejOpen ∧
      (startCall openBreaker 500 0).1.counters.fires =
        openBreaker.counters.fires ∧
      (tickReset openBreaker 1000).st = .halfOpen false := by
  obtain ⟨h1, _, _, h4, _⟩ :=
    openRejectsFailFast.1 openBreaker 0 500 0 rfl rfl (by decide) (Or.inl rfl)
  exact ⟨h1, h4, openRejectsFailFast.2.2 openBreaker 0 1000 rfl (by decide)⟩

/-- Witness for C3: the first HalfOpen call is dispatched as the probe, a
call during the probe is rejected, a successful probe closes the breaker
and a failed probe re-opens it. -/
theorem halfOpenSingleProbe_witness :
    (startCall probeBreakerIdle 0 0).2 = .fired true ∧
      (startCall probeBreakerBusy 0 1).2 = .rejOpen ∧
      (finishAt probeBreakerBusy 5 0 (.succeed 1)).st = .closed ∧
      (finishAt probeBreakerBusy 5 0 (.fail false 0)).st = .opened 5 := by
  obtain ⟨ha, _⟩ :=
    halfOpenSingleProbe.1 probeBreakerIdle 0 0 rfl rfl (Or.inl rfl) (by decide)
  obtain ⟨hb, _, _⟩ :=
    halfOpenSingleProbe.2.1 probeBreakerBusy 0 1 rfl rfl (Or.inl rfl)
  obtain ⟨hc, _⟩ :=
    halfOpenSingleProbe.2.2.1 probeBreakerBusy 5 0 1 ⟨0, true⟩ rfl rfl
  have hd :=
    halfOpenSingleProbe.2.2.2 probeBreakerBusy 5 0 ⟨0, true⟩ (.fail false 0)
      rfl rfl (fun v h => Beh.noConfusion h)
  exact ⟨ha, hb, hc, hd⟩

/-- Witness for C4: a filtered error leaves the failure counter and the
Closed state untouched, and the caller sees the same result as for an
unfiltered failure; 100 filtered errors in a row keep the breaker Closed. -/
theorem filteredErrorsExcluded_witness :
    (finishAt pendingBreaker 0 0 (.fail true 7)).counters.failures =
        pendingBreaker.counters.failures ∧
      (execute (mkBreaker cfgW 0) 0 0 (.fail true 7) none [] none).2 =
        (execute (mkBreaker cfgW 0) 0 0 (.fail false 7) none [] none).2 ∧
      (filteredCalls (mkBreaker cfgW 0) 0 0 7 100).st = .closed := by
  obtain ⟨h1, _⟩ :=
    filteredErrorsExcluded.1 pendingBreaker 0 0 7 ⟨0, false⟩ rfl rfl
  exact ⟨h1, filteredErrorsExcluded.2.1 (mkBreaker cfgW 0) 0 0 7 none [] none,
    filteredErrorsExcluded.2.2 (mkBreaker cfgW 0) 0 0 7 100 rfl⟩

/-- Witness for C5: on a failing call, a fallback returning a value yields
that value, a throwing fallback surfaces its error, and no fallback yields
the service-unavailable error. -/
theorem fallbackPath_witness :
    (execute (mkBreaker cfgW 0) 0 0 (.fail false 1) (some fbOk) [5] none).2 =
        .ok 5 ∧
      (execute (mkBreaker cfgW 0) 0 0 (.fail false 1) (some fbThrow)
            [5] none).2 =
        .error (.fallbackFailure 9) ∧
      (execute (mkBreaker cfgW 0) 0 0 (.fail false 1) none [5] none).2 =
        .error .unavailable :=
  ⟨fallbackPath.1 (mkBreaker cfgW 0) 0 0 1 5 fbOk [5] none rfl (Or.inl rfl) rfl,
    fallbackPath.2.1 (mkBreaker cfgW 0) 0 0 1 9 fbThrow [5] none rfl
      (Or.inl rfl) rfl,
    fallbackPath.2.2 (mkBreaker cfgW 0) 0 0 1 [5] none rfl (Or.inl rfl)⟩

/-- Witness for C6: with capacity 2 and two calls in flight, a third call
is rejected as semaphore-locked; finishing one call releases its permit and
the next call is dispatched again. -/
theorem capacityGate_witness :
    (startCall busyBreaker 0 9).2 = .rejCapacity ∧
      (finishAt busyBreaker 0 0 (.succeed 1)).pending.length + 1 =
        busyBreaker.pending.length ∧
      (startCall (finishAt busyBreaker 0 0 (.succeed 1)) 1 9).2 =
        .fired false := by
  obtain ⟨h1, _⟩ := capacityGate.1 busyBreaker 0 9 rfl rfl (Or.inl rfl) (by decide)
  have h2 := capacityGate.2.1 busyBreaker 0 0 (.succeed 1) ⟨0, false⟩ rfl
  have h3 := capacityGate.2.2 busyBreaker 0 1 0 1 9 ⟨0, false⟩ rfl rfl rfl
    (by decide) rfl (by decide)
  exact ⟨h1, h2, h3⟩

/-- Witness for C7: the first resolve of "a" fixes its configuration; a
later resolve with different options returns the same stored breaker and
registry. -/
theorem registryResolveIdempotent_witness :
    (resolve ⟨[]⟩ "a" cfgW 0).2.cfg = cfgW ∧
      resolve (resolve ⟨[]⟩ "a" cfgW 0).1 "a" docsDefaultOptions 5 =
        ((resolve ⟨[]⟩ "a" cfgW 0).1, (resolve ⟨[]⟩ "a" cfgW 0).2) :=
  ⟨(registryResolveIdempotent.1 ⟨[]⟩ "a" cfgW 0 rfl).1,
    registryResolveIdempotent.2.1 ⟨[]⟩ "a" cfgW docsDefaultOptions 0 5⟩

/-- Witness for C8: a value stored with TTL 5000 at time 0 is returned at
4999 and missed at 5000; a flushed cache misses; a breaker with a live
entry serves the cached value even though the call would fail. -/
theorem cacheTTLBehaviour_witness :
    cacheGet cfgWC (cacheSet cfgWC [] 0 1 7) 4999 1 = some 7 ∧
      cacheGet cfgWC (cacheSet cfgWC [] 0 1 7) 5000 1 = none ∧
      cacheGet cfgWC (cacheFlush [⟨1, 7, 0⟩]) 0 1 = none ∧
      (execute cachedBreaker 100 0 (.fail false 3) none [] none).2 = .ok 42 :=
  ⟨cacheTTLBehaviour.1 cfgWC [] 0 4999 1 7 rfl (Or.inr (by decide)),
    cacheTTLBehaviour.2.1 cfgWC [] 0 5000 1 7 rfl (by decide) (by decide),
    cacheTTLBehaviour.2.2.1 cfgWC [⟨1, 7, 0⟩] 0 1,
    (cacheTTLBehaviour.2.2.2 cachedBreaker 100 0 42 (.fail false 3) none []
        none rfl rfl rfl).1⟩

/-- Witness for C10: over a concrete completed trace with no filtered
errors, fires equals successes + failures + timeouts. -/
theorem statsAccounting_witness :
    (runTrace (mkBreaker cfgW 0)
          [.call 0 0 (.succeed 1), .call 0 0 (.fail false 2)]).counters.fires =
      (runTrace (mkBreaker cfgW 0)
            [.call 0 0 (.succeed 1),
              .call 0 0 (.fail false 2)]).counters.successes +
        (runTrace (mkBreaker cfgW 0)
            [.call 0 0 (.succeed 1),
              .call 0 0 (.fail false 2)]).counters.failures +
        (runTrace (mkBreaker cfgW 0)
            [.call 0 0 (.succeed 1),
              .call 0 0 (.fail false 2)]).counters.timeouts :=
  statsAccounting.2 cfgW 0 [.call 0 0 (.succeed 1), .call 0 0 (.fail false 2)]
    (by decide) (by decide)

end CircuitBreaker
